import Mathlib

/-!
Shallow embedding of the financial-analyst core of the ps-billing-requests
repository (src/financial-analyst), covering:

* the account matcher `findAccounts` and its synonym / exclusion tables
  (src/financial-analyst/workflows/index.js, lines 56..257),
* the full-ledger balance aggregation in `getAllAccountBalances`
  (same file, lines 300..416) together with its layered cache,
* the projection `calculateBalances` (lines 421..438),
* the `accountBalance` workflow (lines 453..532),
* the bounded tool-call loop `analyze` (src/financial-analyst/index.js).

Conventions of the embedding:

* JavaScript values that may be `undefined`/`null` are `Option` values;
  JS truthiness of strings (empty string is falsy) and numbers (0 is falsy)
  is modelled by explicit `strTruthy` / `natTruthy` helpers.
* JS objects used as string-keyed maps are association lists
  `List (String × α)`; assignment keeps the position of an existing key and
  appends a fresh key, matching JS property insertion order.
* Monetary amounts are rationals; `parseFloat` of the decimal string sent by
  the ledger API is modelled as the rational that string denotes.
* `toLowerCase`/`toUpperCase` are modelled with the ASCII `Char.toLower` /
  `Char.toUpper`; all string constants involved are ASCII.
* Presentation-only string fields of results (`formatted_balance`,
  `formatted_total`, `summary`, produced with `Intl.NumberFormat`) are
  locale formatting and are omitted from the embedded records.
-/

attribute [local semireducible] Rat.add Rat.sub Rat.mul Rat.inv Rat.ofScientific

/-- JS truthiness of a possibly-undefined string: `undefined` and `""` are falsy.
Emptiness is read off the character list so the kernel can evaluate it. -/
def strTruthy : Option String → Bool
  | none => false
  | some s => !s.data.isEmpty

/-- JS truthiness of a possibly-undefined number: `undefined` and `0` are falsy. -/
def natTruthy : Option Nat → Bool
  | none => false
  | some n => n ≠ 0

/-- JS `a || d` for a possibly-undefined string `a` and default `d`. -/
def jsStrOr (a : Option String) (d : String) : String :=
  match a with
  | none => d
  | some s => if s.data.isEmpty then d else s

/-- JS `String.prototype.toLowerCase` (ASCII).  Mapped over the character
list: the core `String.map` recurses on byte positions by well-founded
recursion, which the kernel cannot evaluate. -/
def jsToLower (s : String) : String := ⟨s.data.map Char.toLower⟩

/-- JS `String.prototype.toUpperCase` (ASCII). -/
def jsToUpper (s : String) : String := ⟨s.data.map Char.toUpper⟩

/-- JS `String.prototype.trim`, over the character list for the same reason. -/
def jsTrim (s : String) : String :=
  ⟨((s.data.dropWhile Char.isWhitespace).reverse.dropWhile Char.isWhitespace).reverse⟩

/-- Helper for substring search over character lists. -/
def containsSub (needle : List Char) : List Char → Bool
  | [] => needle.isEmpty
  | c :: t => needle.isPrefixOf (c :: t) || containsSub needle t

/-- JS `hay.includes(needle)` for strings. -/
def strContains (hay needle : String) : Bool := containsSub needle.data hay.data

/-- Assignment `m[k] = v` on a JS object modelled as an association list:
an existing key keeps its position, a fresh key is appended. -/
def aset {α : Type} : List (String × α) → String → α → List (String × α)
  | [], k, v => [(k, v)]
  | (k', v') :: rest, k, v =>
      if k' = k then (k, v) :: rest else (k', v') :: aset rest k v

/-- Chart-of-accounts record as served by the ledger API (`GET /accounts`).
Every field can be absent in the raw JSON, hence `Option`. -/
structure Account where
  code : Option String := none
  name : Option String := none
  type : Option String := none
  subtype : Option String := none
  status : Option String := none
deriving Repr, DecidableEq

/-- Search criteria accepted by `findAccounts` (workflows/index.js 162). -/
structure Criteria where
  search : Option String := none
  type : Option String := none
  subtype : Option String := none
  codes : Option (List String) := none
deriving Repr, DecidableEq

/-- JS test `!codes || codes.length === 0`. -/
def codesEmpty : Option (List String) → Bool
  | none => true
  | some l => l.isEmpty

/-- `SEARCH_TO_SUBTYPE_MAP` (workflows/index.js 61..90).  In the source a value
is either a single subtype string or an array of subtypes; the only use site
normalises with `Array.isArray(mapped) ? mapped : [mapped]`, so values are
stored here already as lists. -/
def SEARCH_TO_SUBTYPE_MAP : List (String × List String) :=
  [("cash", ["Cash", "Bank"]),
   ("bank", ["Bank"]),
   ("liquid", ["Cash", "Bank"]),
   ("liquidity", ["Cash", "Bank"]),
   ("ar", ["Accounts Receivable"]),
   ("accounts receivable", ["Accounts Receivable"]),
   ("receivable", ["Accounts Receivable"]),
   ("receivables", ["Accounts Receivable"]),
   ("ap", ["Accounts Payable"]),
   ("accounts payable", ["Accounts Payable"]),
   ("payable", ["Accounts Payable"]),
   ("payables", ["Accounts Payable"]),
   ("prepaid", ["Prepaid"]),
   ("prepaids", ["Prepaid"]),
   ("accrued", ["Accrued"]),
   ("accruals", ["Accrued"]),
   ("revenue", ["Revenue"]),
   ("deferred revenue", ["Deferred Revenue"]),
   ("deferred", ["Deferred Revenue"]),
   ("fixed assets", ["Fixed Assets"]),
   ("fa", ["Fixed Assets"])]

/-- `SEARCH_EXCLUSIONS` (workflows/index.js 96..121). -/
def SEARCH_EXCLUSIONS : List (String × List String) :=
  [("cash", ["receivable", "receivables", "clearing", "money in transit", "in transit"]),
   ("liquid", ["receivable", "receivables", "clearing", "money in transit", "in transit"]),
   ("liquidity", ["receivable", "receivables", "clearing", "money in transit", "in transit"]),
   ("bank", ["receivable", "receivables", "clearing", "money in transit", "in transit"])]

/-- `SUBTYPE_EXCLUSIONS` (workflows/index.js 127..130). -/
def SUBTYPE_EXCLUSIONS : List (String × List String) :=
  [("cash", ["receivable", "receivables", "clearing", "money in transit", "in transit"]),
   ("bank", ["receivable", "receivables", "clearing", "money in transit", "in transit"])]

/-- The explicit account-code list the source keeps for the search term
`"cash"` (the entries of `ACCOUNT_CODE_LISTS['cash']`); the source comments
name, among others, Shopify Funds Clearing (11016), Stripe Money in Transit
(11028) and Shopify Money in Transit (11029). -/
def CASH_ACCOUNT_CODES : List String :=
  ["11001", "11003", "11016", "11017", "11018", "11023", "11024",
   "11028", "11029", "11031", "11033", "11034", "11035"]

/-- `ACCOUNT_CODE_LISTS` (workflows/index.js 136..152). -/
def ACCOUNT_CODE_LISTS : List (String × List String) :=
  [("cash", CASH_ACCOUNT_CODES)]

/-- The local variables of `findAccounts` after the smart-mapping steps
(workflows/index.js 164..207) have run. -/
structure Resolved where
  search : Option String
  type : Option String
  subtypes : Option (List String)
  codes : Option (List String)
  exclusions : Option (List String)
deriving Repr, DecidableEq

/-- Smart-mapping steps of `findAccounts` (workflows/index.js 169..207):
first the code-list table, then the subtype-synonym table (with its exclusion
list), then the explicitly given subtype (with `SUBTYPE_EXCLUSIONS`). -/
def resolveCriteria (c : Criteria) : Resolved :=
  let step1 :=
    if strTruthy c.search && !strTruthy c.subtype && codesEmpty c.codes then
      let searchLower := jsTrim (jsToLower (c.search.getD ""))
      match List.lookup searchLower ACCOUNT_CODE_LISTS with
      | some l =>
          { search := none, type := c.type, subtypes := none,
            codes := some l, exclusions := none }
      | none =>
          match List.lookup searchLower SEARCH_TO_SUBTYPE_MAP with
          | some sts =>
              { search := none, type := c.type, subtypes := some sts,
                codes := c.codes,
                exclusions := List.lookup searchLower SEARCH_EXCLUSIONS }
          | none =>
              { search := c.search, type := c.type, subtypes := none,
                codes := c.codes, exclusions := none }
    else
      { search := c.search, type := c.type, subtypes := none,
        codes := c.codes, exclusions := none }
  if strTruthy c.subtype && step1.subtypes.isNone then
    let subtypeLower := jsTrim (jsToLower (c.subtype.getD ""))
    { step1 with
      subtypes := some [c.subtype.getD ""],
      exclusions :=
        match List.lookup subtypeLower SUBTYPE_EXCLUSIONS with
        | some e => some e
        | none => step1.exclusions }
  else step1

/-- Code filter of `findAccounts` (workflows/index.js 211..213). -/
def codesCheck (r : Resolved) (acc : Account) : Bool :=
  match r.codes with
  | none => true
  | some codes =>
      if codes.length > 0 then
        match acc.code with
        | some cd => codes.contains cd
        | none => false
      else true

/-- Type filter (workflows/index.js 216..218): exact match after `toUpperCase`;
an account with no `type` never equals a truthy requested type. -/
def typeCheck (r : Resolved) (acc : Account) : Bool :=
  if strTruthy r.type then
    match acc.type with
    | some t => jsToUpper t == jsToUpper (r.type.getD "")
    | none => false
  else true

/-- Subtype filter (workflows/index.js 221..225). -/
def subtypeCheck (r : Resolved) (acc : Account) : Bool :=
  match r.subtypes with
  | none => true
  | some sts =>
      if sts.length > 0 then
        let accSubtype := jsToLower (jsStrOr acc.subtype "")
        sts.any fun st => jsToLower st == accSubtype
      else true

/-- Exclusion filter (workflows/index.js 228..235): reject accounts whose name
contains one of the exclusion substrings. -/
def exclusionCheck (r : Resolved) (acc : Account) : Bool :=
  match r.exclusions with
  | none => true
  | some excl =>
      if excl.length > 0 then
        let nameLower := jsToLower (jsStrOr acc.name "")
        !(excl.any fun e => strContains nameLower (jsToLower e))
      else true

/-- Literal search filter (workflows/index.js 238..250), with the negation
guard for names containing `non-` or `non ` followed by the search term. -/
def searchCheck (r : Resolved) (acc : Account) : Bool :=
  if strTruthy r.search then
    let s := r.search.getD ""
    let searchLower := jsToLower s
    let nameLower := jsToLower (jsStrOr acc.name "")
    if strContains nameLower ("non-" ++ searchLower) ||
       strContains nameLower ("non " ++ searchLower) then false
    else
      let nameMatch := strContains nameLower searchLower
      let codeMatch :=
        match acc.code with
        | some cd => strContains cd s
        | none => false
      nameMatch || codeMatch
  else true

/-- Status filter (workflows/index.js 253). -/
def statusCheck (acc : Account) : Bool := acc.status == some "ACTIVE"

/-- Predicate of the final `accounts.filter` in `findAccounts`
(workflows/index.js 209..256); the early returns of the source are the
conjuncts here, in source order. -/
def accountMatches (r : Resolved) (acc : Account) : Bool :=
  codesCheck r acc && typeCheck r acc && subtypeCheck r acc &&
    exclusionCheck r acc && searchCheck r acc && statusCheck acc

/-- The account matcher `findAccounts` (workflows/index.js 162..257) as a pure
function of the fetched account list. -/
def findAccounts (c : Criteria) (accounts : List Account) : List Account :=
  accounts.filter (accountMatches (resolveCriteria c))

/-! ## Full-ledger balance aggregation (workflows/index.js 300..416) -/

/-- The `amount` object of a journal-entry line item; `amount.amount` is the
decimal magnitude, modelled as the rational value `parseFloat` produces. -/
structure AmountObj where
  amount : Rat
deriving Repr, DecidableEq

/-- Journal-entry line item (`item` in workflows/index.js 361..371). -/
structure JournalItem where
  account_code : Option String := none
  side : Option String := none
  amount : Option AmountObj := none
deriving Repr, DecidableEq

/-- Journal entry: a list of items (`entry.items || []`). -/
structure JournalEntry where
  items : Option (List JournalItem) := none
deriving Repr, DecidableEq

/-- One page of `GET /journal-entries`: `data.journal_entries || []` and
`data.pagination?.next_cursor || null`. -/
structure Page where
  journal_entries : Option (List JournalEntry) := none
  next_cursor : Option String := none
deriving Repr, DecidableEq

/-- Running debit/credit tally per account (workflows/index.js 338). -/
structure RawBalance where
  debits : Rat
  credits : Rat
  transactions : Nat
deriving Repr, DecidableEq

/-- Processing of a single line item (workflows/index.js 361..371): the item
is counted only when its `account_code` is truthy and is a key of the tally
map; `DEBIT` adds to debits, `CREDIT` to credits, anything else only bumps the
transaction count. -/
def applyItem (bal : List (String × RawBalance)) (item : JournalItem) :
    List (String × RawBalance) :=
  match item.account_code with
  | none => bal
  | some code =>
      if code.data.isEmpty then bal
      else
        match List.lookup code bal with
        | none => bal
        | some b =>
            let amt := match item.amount with | some a => a.amount | none => 0
            let b1 :=
              if item.side == some "DEBIT" then { b with debits := b.debits + amt }
              else if item.side == some "CREDIT" then { b with credits := b.credits + amt }
              else b
            aset bal code { b1 with transactions := b1.transactions + 1 }

/-- Processing of one journal entry (workflows/index.js 360..373). -/
def applyEntry (bal : List (String × RawBalance)) (e : JournalEntry) :
    List (String × RawBalance) :=
  (e.items.getD []).foldl applyItem bal

/-- Processing of one fetched page (workflows/index.js 356..373). -/
def applyPage (bal : List (String × RawBalance)) (p : Page) :
    List (String × RawBalance) :=
  (p.journal_entries.getD []).foldl applyEntry bal

/-- The page-count ceiling `maxPages` of workflows/index.js 345. -/
def maxPages : Nat := 500

/-- The do/while pagination loop of workflows/index.js 349..381.  The remote
ledger is modelled as the sequence of pages the API hands back to successive
cursor-chained requests, indexed by fetch number.  `pageCount` is the loop
counter; `fuel` is `maxPages - pageCount` and only makes the recursion
structural — the guard `pageCount < maxPages` stops the loop before fuel can
run out.  Returns the final tally together with the number of pages fetched. -/
def pageLoop (pages : Nat → Page) (bal : List (String × RawBalance))
    (pageCount : Nat) : Nat → List (String × RawBalance) × Nat
  | 0 => (bal, pageCount)
  | fuel + 1 =>
      let data := pages pageCount
      let bal1 := applyPage bal data
      let pc1 := pageCount + 1
      if strTruthy data.next_cursor && decide (pc1 < maxPages) then
        pageLoop pages bal1 pc1 fuel
      else (bal1, pc1)

/-- Per-account record of the final balance map (workflows/index.js 396..405). -/
structure AccountBalance where
  code : String
  name : String
  type : String
  subtype : String
  debits : Rat
  credits : Rat
  balance : Rat
  transactions : Nat
deriving Repr, DecidableEq

/-- The credit-normal account types of workflows/index.js 393. -/
def CREDIT_TYPES : List String := ["LIABILITY", "EQUITY", "REVENUE", "INCOME"]

/-- Final balance record for one account code (workflows/index.js 388..405):
`accountsMap[code] || {}` falls back to an account with every field absent,
the sign convention keys on `(acc.type || '').toUpperCase()`, and missing
metadata is replaced by `'Unknown'`. -/
def mkAccountBalance (accountsMap : List (String × Account)) (code : String)
    (b : RawBalance) : AccountBalance :=
  let acc := (List.lookup code accountsMap).getD {}
  let isCredit := CREDIT_TYPES.contains (jsToUpper (jsStrOr acc.type ""))
  let balance := if isCredit then b.credits - b.debits else b.debits - b.credits
  { code := code
    name := jsStrOr acc.name "Unknown"
    type := jsStrOr acc.type "Unknown"
    subtype := jsStrOr acc.subtype "Unknown"
    debits := b.debits
    credits := b.credits
    balance := balance
    transactions := b.transactions }

/-- Key under which an account is stored in `accountsMap` and `balances`
(workflows/index.js 331..339): JS coerces an undefined `code` to the property
key `"undefined"`. -/
def accKey (a : Account) : String := a.code.getD "undefined"

/-- The Tier-3 cold computation inside `getAllAccountBalances`
(workflows/index.js 329..415) as a pure function of the fetched account list
and the page sequence: build `accountsMap`, zero-initialise a tally for every
account, run the pagination loop, then attach metadata and the signed balance.
Returns the balance map together with the page count of the loop. -/
def computeAllBalances (accounts : List Account) (pages : Nat → Page) :
    List (String × AccountBalance) × Nat :=
  let accountsMap := accounts.foldl (fun m a => aset m (accKey a) a) []
  let balances0 := accounts.foldl (fun m a => aset m (accKey a) ⟨0, 0, 0⟩) []
  let st := pageLoop pages balances0 0 maxPages
  (st.1.map (fun p => (p.1, mkAccountBalance accountsMap p.1 p.2)), st.2)

/-! ## Layered cache (workflows/index.js 36..54 and 259..332) -/

/-- Externally visible side effects of the cache layers: a network request to
the ledger API, a read of the Postgres cache, a write to the Postgres cache. -/
inductive Effect
  | netFetch (endpoint : String)
  | dbRead
  | dbWrite
deriving Repr, DecidableEq

/-- The module-level mutable cache variables of workflows/index.js:
`accountsCache`/`accountsCacheTime` (lines 38..39) and
`memoryCache`/`memoryCacheTime` (lines 262..263).  Timestamps are
milliseconds as returned by `Date.now()`. -/
structure CacheState where
  accountsCache : Option (List Account) := none
  accountsCacheTime : Option Nat := none
  memoryCache : Option (List (String × AccountBalance)) := none
  memoryCacheTime : Option Nat := none
deriving Repr, DecidableEq

/-- The external world as seen by the workflows: the account list served by
`GET /accounts` (`data.accounts || []`), the page sequence served by
successive cursor-chained `GET /journal-entries` requests, and the newest
persisted snapshot of the Postgres cache together with its `age_hours`
(`none` models a missing `DATABASE_URL`, an empty table, or a read error —
all of which the source converts to `null`). -/
structure World where
  accounts : List Account
  pages : Nat → Page
  dbCache : Option ((List (String × AccountBalance)) × Nat)

/-- `CACHE_TTL` for the session account cache (workflows/index.js 40). -/
def CACHE_TTL : Nat := 5 * 60 * 1000

/-- `MEMORY_CACHE_TTL` for the Tier-1 balance cache (workflows/index.js 264). -/
def MEMORY_CACHE_TTL : Nat := 5 * 60 * 1000

/-- `MAX_AGE_HOURS` staleness bound of the Postgres cache (workflows/index.js 276). -/
def MAX_AGE_HOURS : Nat := 24

/-- `getAllAccounts` (workflows/index.js 42..54): session-cached fetch of the
chart of accounts.  `Date.now()` is the `now` argument. -/
def getAllAccounts (now : Nat) (st : CacheState) (w : World) :
    List Account × CacheState × List Effect :=
  if st.accountsCache.isSome && natTruthy st.accountsCacheTime &&
      decide (now - st.accountsCacheTime.getD 0 < CACHE_TTL) then
    (st.accountsCache.getD [], st, [])
  else
    (w.accounts,
     { st with accountsCache := some w.accounts, accountsCacheTime := some now },
     [Effect.netFetch "/accounts"])

/-- `getBalancesFromDB` (workflows/index.js 270..287): read the newest
snapshot and treat it as a miss when older than `MAX_AGE_HOURS`.  The
`Effect.dbRead` records that the persistent store was consulted. -/
def getBalancesFromDB (w : World) :
    Option (List (String × AccountBalance)) × List Effect :=
  (match w.dbCache with
   | none => none
   | some (balances, ageHours) =>
       if ageHours > MAX_AGE_HOURS then none else some balances,
   [Effect.dbRead])

/-- `getAllAccountBalances` (workflows/index.js 304..416).
Tier 1: the in-process cache, when populated, fresh and not force-refreshed.
Tier 2: the Postgres snapshot, which repopulates Tier 1.
Tier 3: the cold computation `computeAllBalances` over the accounts returned
by `getAllAccounts`, written through to both tiers (`saveBalancesToDB` is the
`Effect.dbWrite`).  Returns the balance map, the new cache state and the
side-effect trace in source order. -/
def getAllAccountBalances (forceRefresh : Bool) (now : Nat) (st : CacheState)
    (w : World) :
    List (String × AccountBalance) × CacheState × List Effect :=
  if !forceRefresh && st.memoryCache.isSome && natTruthy st.memoryCacheTime &&
      decide (now - st.memoryCacheTime.getD 0 < MEMORY_CACHE_TTL) then
    (st.memoryCache.getD [], st, [])
  else
    let dbStep := if forceRefresh then (none, []) else getBalancesFromDB w
    match dbStep with
    | (some dbBalances, eff) =>
        (dbBalances,
         { st with memoryCache := some dbBalances, memoryCacheTime := some now },
         eff)
    | (none, eff) =>
        let acc := getAllAccounts now st w
        let computed := computeAllBalances acc.1 w.pages
        (computed.1,
         { acc.2.1 with memoryCache := some computed.1, memoryCacheTime := some now },
         eff ++ acc.2.2 ++
           List.replicate computed.2 (Effect.netFetch "/journal-entries") ++
           [Effect.dbWrite])

/-- `calculateBalances` (workflows/index.js 421..438) as a pure projection:
`allBalances` stands for the map `getAllAccountBalances()` returned at the
call.  Requested codes found in the full map are copied over; absent codes
are silently skipped; an empty request short-circuits to the empty map. -/
def calculateBalances (accountCodes : List String)
    (allBalances : List (String × AccountBalance)) :
    List (String × AccountBalance) :=
  if accountCodes.isEmpty then []
  else
    accountCodes.foldl
      (fun results code =>
        match List.lookup code allBalances with
        | some b => aset results code b
        | none => results) []

/-! ## The account-balance workflow (workflows/index.js 453..532) -/

/-- Result shape of `accountBalance`.  The two error constructors carry
`is_error: true` in the source; `success` is the normal payload.  The
presentation-only fields (`formatted_balance`, `formatted_total`, `summary`)
are omitted, see the header comment. -/
inductive BalanceResult
  | invalidInput (error : String) (hint : String)
  | noMatch (error : String) (criteria : Criteria) (hint : String)
  | success (criteria : Criteria) (accountsFound : Nat)
      (accounts : List AccountBalance) (totalBalance : Rat)
deriving Repr, DecidableEq

/-- `Array.prototype.sort` with the comparator
`(a, b) => Math.abs(b.balance) - Math.abs(a.balance)`
(workflows/index.js 510), i.e. a stable sort into descending order of
absolute balance, modelled by Mathlib's stable insertion sort. -/
def sortByAbsBalance (l : List AccountBalance) : List AccountBalance :=
  List.insertionSort (fun a b => |b.balance| ≤ |a.balance|) l

/-- The `accountBalance` workflow (workflows/index.js 468..532) as a pure
function: `accounts` stands for the list `findAccounts` works on and
`allBalances` for the full map `getAllAccountBalances()` returns inside
`calculateBalances`.  The `catch` branch for thrown transport errors
(lines 524..531) is outside this pure embedding. -/
def accountBalance (input : Criteria) (accounts : List Account)
    (allBalances : List (String × AccountBalance)) : BalanceResult :=
  if !strTruthy input.search && !strTruthy input.type && !strTruthy input.subtype &&
      codesEmpty input.codes then
    .invalidInput
      "Please provide at least one filter: search (account name), type, subtype, or codes"
      "Examples: \x7b search: \"cash\" \x7d, \x7b type: \"LIABILITY\" \x7d, \x7b subtype: \"Bank\" \x7d, \x7b codes: [\"11001\", \"11002\"] \x7d"
  else
    let matchedAccounts := findAccounts input accounts
    if matchedAccounts.length = 0 then
      .noMatch "No accounts found matching your criteria" input
        "Try a broader search or check account names in Rillet"
    else
      let accountCodes := matchedAccounts.map accKey
      let balances := calculateBalances accountCodes allBalances
      let results := balances.map Prod.snd
      let sorted := sortByAbsBalance results
      let totalBalance := sorted.foldl (fun s r => s + r.balance) 0
      .success input sorted.length sorted totalBalance

/-! ## Tool-call loop (src/financial-analyst/index.js 154..327) -/

/-- Content block of a model response: plain text or a tool-use request.
Tool inputs are opaque payloads here, modelled as strings. -/
inductive Block
  | text (t : String)
  | toolUse (id : String) (name : String) (input : String)
deriving Repr, DecidableEq

/-- Response of `claude.createMessageWithRetry`. -/
structure ClaudeResponse where
  stop_reason : String
  content : List Block
deriving Repr, DecidableEq

/-- Message content in the running conversation: the user question, an
assistant turn (its content blocks), or a list of tool results
`(tool_use_id, serialized content)`. -/
inductive MsgContent
  | plain (s : String)
  | blocks (bs : List Block)
  | toolResults (rs : List (String × String))
deriving Repr, DecidableEq

/-- Role-tagged conversation message. -/
structure Message where
  role : String
  content : MsgContent
deriving Repr, DecidableEq

/-- Result of `analyze`: `formatResponse` or `formatError` of
formatters/slack-blocks.js, kept abstract as tagged text. -/
inductive SlackMsg
  | response (text : String)
  | errorMsg (text : String)
deriving Repr, DecidableEq

/-- `MAX_TOOL_ITERATIONS` (src/financial-analyst/index.js 155). -/
def MAX_TOOL_ITERATIONS : Nat := 10

/-- JS `Array.prototype.join` with separator `"\n"`. -/
def joinNl : List String → String
  | [] => ""
  | [s] => s
  | s :: rest => s ++ "\n" ++ joinNl rest

/-- The `while (iteration < MAX_TOOL_ITERATIONS)` loop of `analyze`
(src/financial-analyst/index.js 251..323).  `model` is
`claude.createMessageWithRetry` (its transport-error classification is
orthogonal to the loop and elided), `toolExec` is `tools.execute` composed
with `JSON.stringify`.  `iteration` is the loop counter; the structural
`fuel` argument is `MAX_TOOL_ITERATIONS - iteration`.  Returns the Slack
message together with the number of model calls made. -/
def analyzeLoop (model : List Message → ClaudeResponse)
    (toolExec : String → String → String) :
    List Message → Nat → Nat → SlackMsg × Nat
  | _, iteration, 0 =>
      (.errorMsg "The analysis took too long. Please try a simpler question or break it into parts.",
       iteration)
  | messages, iteration, fuel + 1 =>
      let iter1 := iteration + 1
      let response := model messages
      if response.stop_reason == "tool_use" then
        let toolResults := response.content.filterMap fun b =>
          match b with
          | .toolUse id name input => some (id, toolExec name input)
          | _ => none
        let messages1 := messages ++
          [{ role := "assistant", content := .blocks response.content },
           { role := "user", content := .toolResults toolResults }]
        analyzeLoop model toolExec messages1 iter1 fuel
      else
        let textContent := joinNl (response.content.filterMap fun b =>
          match b with
          | .text t => some t
          | _ => none)
        if textContent.data.isEmpty then
          (.errorMsg "I was unable to generate a response. Please try rephrasing your question.",
           iter1)
        else (.response textContent, iter1)

/-- `analyze` (src/financial-analyst/index.js 232..327): seed the
conversation with the thread history plus the new question and run the loop.
The per-thread conversation store (`getConversation`/`saveConversation`)
supplies `existingMessages` and persists the final exchange; it is outside
the loop being specified. -/
def analyze (model : List Message → ClaudeResponse)
    (toolExec : String → String → String) (question : String)
    (existingMessages : List Message) : SlackMsg × Nat :=
  analyzeLoop model toolExec
    (existingMessages ++ [{ role := "user", content := .plain question }])
    0 MAX_TOOL_ITERATIONS

/-! ## Auxiliary definitions for the specification statements -/

/-- Modelled from the spec: the resolution order of section 4.3, steps 2 and 3
of the specification — the synonym-to-subtype(s) mapping is consulted BEFORE
the synonym-to-explicit-code-list mapping.  This definition follows the words
of the spec, not the source, and exists only to compare the two orders. -/
def resolveCriteriaSpecOrder (c : Criteria) : Resolved :=
  let step1 :=
    if strTruthy c.search && !strTruthy c.subtype && codesEmpty c.codes then
      let searchLower := jsTrim (jsToLower (c.search.getD ""))
      match List.lookup searchLower SEARCH_TO_SUBTYPE_MAP with
      | some sts =>
          { search := none, type := c.type, subtypes := some sts,
            codes := c.codes,
            exclusions := List.lookup searchLower SEARCH_EXCLUSIONS }
      | none =>
          match List.lookup searchLower ACCOUNT_CODE_LISTS with
          | some l =>
              { search := none, type := c.type, subtypes := none,
                codes := some l, exclusions := none }
          | none =>
              { search := c.search, type := c.type, subtypes := none,
                codes := c.codes, exclusions := none }
    else
      { search := c.search, type := c.type, subtypes := none,
        codes := c.codes, exclusions := none }
  if strTruthy c.subtype && step1.subtypes.isNone then
    let subtypeLower := jsTrim (jsToLower (c.subtype.getD ""))
    { step1 with
      subtypes := some [c.subtype.getD ""],
      exclusions :=
        match List.lookup subtypeLower SUBTYPE_EXCLUSIONS with
        | some e => some e
        | none => step1.exclusions }
  else step1

/-- Modelled from the spec: `findAccounts` with the resolution order of
section 4.3 of the specification, for comparison with the source order. -/
def findAccountsSpecOrder (c : Criteria) (accounts : List Account) :
    List Account :=
  accounts.filter (accountMatches (resolveCriteriaSpecOrder c))

/-- The list of pages the loop fetches: `pageSeq pages start n` are the pages
answering fetches number `start, start+1, ..., start+n-1`. -/
def pageSeq (pages : Nat → Page) (start : Nat) : Nat → List Page
  | 0 => []
  | n + 1 => pages start :: pageSeq pages (start + 1) n

/-- A ledger identical to `pages` on every fetch but whose page number `n - 1`
reports no continuation cursor: the ledger genuinely ends where a ceiling cut
of `pages` after `n` fetches stops. -/
def truncateAt (pages : Nat → Page) (n : Nat) : Nat → Page :=
  fun i => if i + 1 = n then { pages i with next_cursor := none } else pages i

/-! ## Concrete inputs used by witnesses and counterexamples -/

/-- An active account whose name contains "clearing", with code 11016 — a
member of the hard-coded cash code list (the source comment at
workflows/index.js 140 names it). -/
def shopifyClearingAccount : Account :=
  { code := some "11016", name := some "Shopify Funds Clearing (Fondue)",
    type := some "ASSET", subtype := some "Bank", status := some "ACTIVE" }

/-- An active account of subtype Cash whose code is not in the hard-coded
cash code list. -/
def opsCashAccount : Account :=
  { code := some "99999", name := some "Ops Cash", type := some "ASSET",
    subtype := some "Cash", status := some "ACTIVE" }

/-- A liability account (mixed-case type) used to exercise the sign
convention. -/
def liabilityAccount : Account :=
  { code := some "21001", name := some "Sales Tax Payable",
    type := some "Liability", subtype := some "Accrued",
    status := some "ACTIVE" }

/-- A single-page ledger: one credit of 40 and one debit of 15 against
account 21001, no continuation cursor. -/
def liabilityPages : Nat → Page := fun _ =>
  { journal_entries := some
      [{ items := some
           [{ account_code := some "21001", side := some "CREDIT",
              amount := some ⟨40⟩ },
            { account_code := some "21001", side := some "DEBIT",
              amount := some ⟨15⟩ }] }],
    next_cursor := none }

/-- The balance record the aggregation computes for `liabilityAccount` over
`liabilityPages`. -/
def liabilityBal : AccountBalance :=
  { code := "21001", name := "Sales Tax Payable", type := "Liability",
    subtype := "Accrued", debits := 15, credits := 40, balance := 25,
    transactions := 2 }

/-- A world whose Postgres cache holds a fresh snapshot (2 hours old). -/
def worldDemo : World :=
  { accounts := [liabilityAccount],
    pages := liabilityPages,
    dbCache := some ([("21001", liabilityBal)], 2) }

/-- The cache state after a call of `getAllAccountBalances` at time 1000
against `worldDemo` populated Tier 1 from the Postgres snapshot. -/
def cacheStateDemo : CacheState :=
  { memoryCache := some [("21001", liabilityBal)], memoryCacheTime := some 1000 }

/-- A ledger that reports a continuation cursor on every one of the first
`maxPages` fetches (each of those pages carrying no entries), with a credit
of 40 against account 21001 waiting on the page after the ceiling. -/
def ceilingPages : Nat → Page := fun i =>
  if i < maxPages then { journal_entries := some [], next_cursor := some "c" }
  else
    { journal_entries := some
        [{ items := some
             [{ account_code := some "21001", side := some "CREDIT",
                amount := some ⟨40⟩ }] }],
      next_cursor := none }

/-! # Theorems -/

/-! ## Sanity checks of the embedding -/

example :
    findAccounts { search := some "bank" }
      [{ code := some "11099", name := some "Chase Clearing", subtype := some "Bank",
         status := some "ACTIVE" },
       { code := some "11098", name := some "Chase Checking", subtype := some "Bank",
         status := some "ACTIVE" }] =
      [{ code := some "11098", name := some "Chase Checking", subtype := some "Bank",
         status := some "ACTIVE" }] := by decide

example :
    computeAllBalances [liabilityAccount] liabilityPages =
      ([("21001", liabilityBal)], 1) := by decide

example :
    findAccounts { search := some "cash" } [opsCashAccount, shopifyClearingAccount] =
      [shopifyClearingAccount] := by decide

/-! ## Helper lemmas -/

theorem lookup_aset {α : Type} (m : List (String × α)) (k c : String) (v : α) :
    List.lookup c (aset m k v) = if c = k then some v else List.lookup c m := by
  induction m with
  | nil =>
      by_cases h : c = k
      · simp [aset, List.lookup_cons, h]
      · simp [aset, List.lookup_cons, beq_false_of_ne h, h]
  | cons p rest ih =>
      obtain ⟨k', v'⟩ := p
      by_cases hk : k' = k
      · subst hk
        by_cases h : c = k'
        · simp [aset, List.lookup_cons, h]
        · simp [aset, List.lookup_cons, beq_false_of_ne h, h]
      · by_cases h : c = k'
        · simp [aset, if_neg hk, List.lookup_cons, h, hk]
        · simp [aset, if_neg hk, List.lookup_cons, beq_false_of_ne h, h, ih]

/-! ## C9: the matcher only ever returns ACTIVE accounts -/

/-- C9.  For every filter input, every account returned by `findAccounts` has
status ACTIVE; no account with any other status is ever returned, regardless
of how the filter was resolved. -/
theorem findAccounts_only_active (c : Criteria) (accounts : List Account)
    (a : Account) (ha : a ∈ findAccounts c accounts) :
    a.status = some "ACTIVE" := by
  have hm : accountMatches (resolveCriteria c) a = true :=
    (List.mem_filter.mp ha).2
  simp only [accountMatches, Bool.and_eq_true] at hm
  have hs : statusCheck a = true := hm.2
  simpa [statusCheck] using hs

/-- C9 witness: the theorem applied to a concrete matcher call. -/
theorem findAccounts_only_active_witness :
    ({ code := some "10001", name := some "Cash on Hand", type := some "ASSET",
       subtype := some "Cash", status := some "ACTIVE" } : Account).status =
      some "ACTIVE" :=
  findAccounts_only_active { search := some "liquid" }
    [{ code := some "10001", name := some "Cash on Hand", type := some "ASSET",
       subtype := some "Cash", status := some "ACTIVE" }] _ (by decide)

/-! ## C2: what a search for "cash" actually returns -/

/-- C2 counterexample: resolving the filter with search `"cash"` does NOT
exclude every active account whose name contains "clearing" — account 11016,
an active account of subtype Bank named "Shopify Funds Clearing (Fondue)",
is returned, because the search `"cash"` is substituted by the hard-coded
code list (which contains 11016) and no exclusion list is applied on that
path. -/
theorem cash_search_returns_clearing_account :
    findAccounts { search := some "cash" } [shopifyClearingAccount] =
        [shopifyClearingAccount] ∧
      strContains (jsToLower (jsStrOr shopifyClearingAccount.name "")) "clearing" = true ∧
      shopifyClearingAccount.status = some "ACTIVE" ∧
      shopifyClearingAccount.subtype = some "Bank" := by decide

/-- C2 amended: resolving the filter with search `"cash"` restricts matching
to the hard-coded cash code list: an account is returned exactly when it is
active and its code is one of those codes, regardless of its name — so the
name-based exclusions ("receivable", "clearing", "in transit") do not apply
to the `"cash"` search (they apply to the subtype-mapped searches such as
"bank", "liquid", "liquidity"). -/
theorem findAccounts_cash_is_code_list (accounts : List Account) (a : Account) :
    a ∈ findAccounts { search := some "cash" } accounts ↔
      a ∈ accounts ∧ (∃ cd, a.code = some cd ∧ cd ∈ CASH_ACCOUNT_CODES) ∧
        a.status = some "ACTIVE" := by
  have hr : resolveCriteria { search := some "cash" } =
      { search := none, type := none, subtypes := none,
        codes := some CASH_ACCOUNT_CODES, exclusions := none } := by decide
  unfold findAccounts
  rw [hr, List.mem_filter]
  refine and_congr_right fun _ => ?_
  simp only [accountMatches, Bool.and_eq_true]
  constructor
  · rintro ⟨⟨⟨⟨⟨hcodes, -⟩, -⟩, -⟩, -⟩, hstat⟩
    refine ⟨?_, by simpa [statusCheck] using hstat⟩
    cases hc : a.code with
    | none =>
        rw [codesCheck] at hcodes
        simp [hc] at hcodes
        exact absurd hcodes (by decide)
    | some cd =>
        rw [codesCheck] at hcodes
        simp only [hc] at hcodes
        rw [if_pos (by decide)] at hcodes
        exact ⟨cd, rfl, by simpa using hcodes⟩
  · rintro ⟨⟨cd, hcd, hmem⟩, hstat⟩
    refine ⟨⟨⟨⟨⟨?_, rfl⟩, rfl⟩, rfl⟩, rfl⟩, by simpa [statusCheck] using hstat⟩
    rw [codesCheck]
    simp only [hcd]
    rw [if_pos (by decide)]
    simpa using hmem

/-! ## C3: which synonym table is consulted first -/

/-- C3 counterexample: the search term `"cash"` is present in both synonym
tables, and the source consults the code-list table FIRST — an active account
of subtype Cash whose code is not in the list (which the spec order, subtype
mapping first, would return) is not returned by the source order. -/
theorem cash_code_list_consulted_first :
    findAccounts { search := some "cash" } [opsCashAccount] = [] ∧
      findAccountsSpecOrder { search := some "cash" } [opsCashAccount] =
        [opsCashAccount] := by decide

/-- C3 amended: when a search term (with no explicit subtype or codes given)
is present in both synonym tables, the synonym-to-explicit-code-list mapping
is consulted FIRST (substituting the code list, clearing the search and
applying no exclusion list); the synonym-to-subtype(s) mapping is used only
when the code-list mapping does not match. -/
theorem resolve_code_list_first (c : Criteria) (l : List String)
    (hs : strTruthy c.search = true) (hsub : strTruthy c.subtype = false)
    (hc : codesEmpty c.codes = true)
    (hl : List.lookup (jsTrim (jsToLower (c.search.getD ""))) ACCOUNT_CODE_LISTS =
      some l) :
    resolveCriteria c =
      { search := none, type := c.type, subtypes := none, codes := some l,
        exclusions := none } := by
  unfold resolveCriteria
  simp [hs, hsub, hc, hl]

/-- C3 witness: the theorem applied to the search term "cash". -/
theorem resolve_code_list_first_witness :
    resolveCriteria { search := some "cash" } =
      { search := none, type := none, subtypes := none,
        codes := some CASH_ACCOUNT_CODES, exclusions := none } :=
  resolve_code_list_first { search := some "cash" } CASH_ACCOUNT_CODES
    (by decide) (by decide) (by decide) (by decide)

/-! ## C5: empty matches give a structured no-match result -/

/-- C5.  For every filter input that passes validation (at least one filter
present) and under which the account matcher finds zero matching accounts,
`accountBalance` returns the structured no-match result with its hint — the
workflow does not throw; `findAccounts` itself returned the empty list, not
an error. -/
theorem accountBalance_no_match (input : Criteria) (accounts : List Account)
    (allBalances : List (String × AccountBalance))
    (hfilter : (!strTruthy input.search && !strTruthy input.type &&
        !strTruthy input.subtype && codesEmpty input.codes) = false)
    (hempty : findAccounts input accounts = []) :
    accountBalance input accounts allBalances =
      .noMatch "No accounts found matching your criteria" input
        "Try a broader search or check account names in Rillet" := by
  unfold accountBalance
  rw [hfilter]
  simp [hempty]

/-- C5 witness: a liability-type query against a ledger with zero liability
accounts. -/
theorem accountBalance_no_match_witness :
    accountBalance { type := some "LIABILITY" } [opsCashAccount] [] =
      .noMatch "No accounts found matching your criteria"
        { type := some "LIABILITY" }
        "Try a broader search or check account names in Rillet" :=
  accountBalance_no_match { type := some "LIABILITY" } [opsCashAccount] []
    (by decide) (by decide)

/-! ## C7: calculateBalances is the restriction of the full map -/

theorem lookup_calculateBalances_go (all : List (String × AccountBalance))
    (codes : List String) :
    ∀ (acc : List (String × AccountBalance)) (c : String),
      List.lookup c
        (codes.foldl
          (fun results code =>
            match List.lookup code all with
            | some b => aset results code b
            | none => results) acc) =
        if codes.contains c && (List.lookup c all).isSome then List.lookup c all
        else List.lookup c acc := by
  induction codes with
  | nil => intro acc c; simp
  | cons d rest ih =>
      intro acc c
      rw [List.foldl_cons, ih]
      by_cases hc : c = d
      · subst hc
        cases hd : List.lookup c all with
        | some b => simp [hd, lookup_aset]
        | none => simp [hd]
      · have hcd : (d :: rest).contains c = rest.contains c := by
          rw [List.contains_cons, beq_false_of_ne hc, Bool.false_or]
        cases hd : List.lookup d all with
        | some b => simp only [hd, hcd, lookup_aset, if_neg hc]
        | none => simp only [hd, hcd]

/-- C7.  For every list of account codes, `calculateBalances codes` applied
after `getAllAccountBalances` returns exactly the restriction of the full
balance map to the requested codes: every requested code present in the full
map appears with an identical value, and no other entries appear (codes
absent from the full map are silently omitted). -/
theorem calculateBalances_restriction (codes : List String) (frc : Bool)
    (now : Nat) (st : CacheState) (w : World) (c : String) :
    List.lookup c (calculateBalances codes (getAllAccountBalances frc now st w).1) =
      if codes.contains c &&
          (List.lookup c (getAllAccountBalances frc now st w).1).isSome then
        List.lookup c (getAllAccountBalances frc now st w).1
      else none := by
  unfold calculateBalances
  by_cases h : codes.isEmpty
  · have hnil : codes = [] := by
      cases codes with
      | nil => rfl
      | cons x xs => simp [List.isEmpty] at h
    subst hnil
    simp
  · rw [if_neg h, lookup_calculateBalances_go]
    simp

/-! ## C8: the tool-call loop is bounded -/

theorem analyzeLoop_all_tools (model : List Message → ClaudeResponse)
    (toolExec : String → String → String)
    (h : ∀ msgs, (model msgs).stop_reason = "tool_use") :
    ∀ (fuel : Nat) (msgs : List Message) (iteration : Nat),
      analyzeLoop model toolExec msgs iteration fuel =
        (.errorMsg "The analysis took too long. Please try a simpler question or break it into parts.",
         iteration + fuel) := by
  intro fuel
  induction fuel with
  | zero => intro msgs it; simp [analyzeLoop]
  | succ f ih =>
      intro msgs it
      simp only [analyzeLoop]
      rw [h msgs]
      simp only [beq_self_eq_true, if_true]
      rw [ih]
      exact Prod.ext rfl (by omega)

/-- C8.  For every model that requests a tool call on every turn, the
tool-call loop terminates after exactly the fixed iteration ceiling
`MAX_TOOL_ITERATIONS` (= 10) of model calls and returns the "took too long"
failure message rather than looping indefinitely. -/
theorem analyze_tool_loop_ceiling (model : List Message → ClaudeResponse)
    (toolExec : String → String → String) (question : String)
    (existingMessages : List Message)
    (h : ∀ msgs, (model msgs).stop_reason = "tool_use") :
    analyze model toolExec question existingMessages =
      (.errorMsg "The analysis took too long. Please try a simpler question or break it into parts.",
       MAX_TOOL_ITERATIONS) ∧
      MAX_TOOL_ITERATIONS = 10 := by
  constructor
  · unfold analyze
    rw [analyzeLoop_all_tools model toolExec h]
    rw [Nat.zero_add]
  · rfl

/-- C8 witness: the theorem applied to a model that always asks for tools. -/
theorem analyze_tool_loop_ceiling_witness :
    analyze (fun _ => { stop_reason := "tool_use", content := [] })
        (fun _ _ => "") "what is our cash balance" [] =
      (.errorMsg "The analysis took too long. Please try a simpler question or break it into parts.",
       MAX_TOOL_ITERATIONS) ∧
      MAX_TOOL_ITERATIONS = 10 :=
  analyze_tool_loop_ceiling (fun _ => { stop_reason := "tool_use", content := [] })
    (fun _ _ => "") "what is our cash balance" [] (fun _ => rfl)

/-! ## C10: total equals the sum, accounts sorted by absolute balance -/

theorem foldl_add_balance (l : List AccountBalance) (s : Rat) :
    l.foldl (fun acc r => acc + r.balance) s =
      s + (l.map (fun b => b.balance)).sum := by
  induction l generalizing s with
  | nil => simp
  | cons b rest ih => simp [ih, add_assoc]

/-- C10.  Whenever `accountBalance` succeeds, its `total_balance` equals the
sum of the `balance` fields of the accounts it returns, and the returned
accounts list is sorted by descending absolute balance. -/
theorem accountBalance_total_and_sorted (input : Criteria)
    (accounts : List Account) (allBalances : List (String × AccountBalance))
    (crit : Criteria) (n : Nat) (accs : List AccountBalance) (total : Rat)
    (h : accountBalance input accounts allBalances =
      .success crit n accs total) :
    total = (accs.map (fun b => b.balance)).sum ∧
      List.Sorted (fun x y => |y.balance| ≤ |x.balance|) accs := by
  simp only [accountBalance] at h
  split at h
  · exact absurd h (by simp)
  · split at h
    · exact absurd h (by simp)
    · rw [BalanceResult.success.injEq] at h
      obtain ⟨-, -, haccs, htot⟩ := h
      constructor
      · rw [← htot, ← haccs, foldl_add_balance, zero_add]
      · rw [← haccs]
        unfold sortByAbsBalance
        haveI : IsTotal AccountBalance (fun x y => |y.balance| ≤ |x.balance|) :=
          ⟨fun a b => le_total _ _⟩
        haveI : IsTrans AccountBalance (fun x y => |y.balance| ≤ |x.balance|) :=
          ⟨fun a b c h1 h2 => le_trans h2 h1⟩
        exact List.sorted_insertionSort _ _

/-- C10 witness: a concrete successful workflow call. -/
theorem accountBalance_total_and_sorted_witness :
    (25 : Rat) = ([liabilityBal].map (fun b => b.balance)).sum ∧
      List.Sorted (fun x y => |y.balance| ≤ |x.balance|) [liabilityBal] :=
  accountBalance_total_and_sorted { codes := some ["21001"] }
    [liabilityAccount] [("21001", liabilityBal)]
    { codes := some ["21001"] } 1 [liabilityBal] 25 (by decide)

/-! ## C1: the sign convention of the full-ledger aggregation -/

theorem lookup_map_mk (l : List (String × RawBalance))
    (f : String → RawBalance → AccountBalance) (c : String) :
    List.lookup c (l.map (fun p => (p.1, f p.1 p.2))) =
      (List.lookup c l).map (fun b => f c b) := by
  induction l with
  | nil => simp
  | cons p rest ih =>
      obtain ⟨k, v⟩ := p
      by_cases h : c = k
      · simp [List.lookup_cons, h]
      · simp [List.lookup_cons, beq_false_of_ne h, ih]

theorem creditTypes_default (t : Option String) :
    CREDIT_TYPES.contains (jsToUpper (jsStrOr t "Unknown")) =
      CREDIT_TYPES.contains (jsToUpper (jsStrOr t "")) := by
  cases t with
  | none => decide
  | some s =>
      by_cases hs : s.data.isEmpty
      · have hnil : s = "" := by
          cases s with
          | mk data =>
              cases data with
              | nil => rfl
              | cons c cs => simp [List.isEmpty] at hs
        subst hnil
        decide
      · simp [jsStrOr, hs]

theorem mkAccountBalance_sign (amap : List (String × Account)) (code : String)
    (b : RawBalance) :
    (mkAccountBalance amap code b).balance =
      if CREDIT_TYPES.contains (jsToUpper (mkAccountBalance amap code b).type) then
        (mkAccountBalance amap code b).credits - (mkAccountBalance amap code b).debits
      else
        (mkAccountBalance amap code b).debits - (mkAccountBalance amap code b).credits := by
  unfold mkAccountBalance
  dsimp only
  rw [creditTypes_default]

/-- C1.  Every entry of the balance map computed by the full-ledger
aggregation satisfies the sign convention: when its account type is
(case-insensitively) LIABILITY, EQUITY, REVENUE or INCOME, balance = total
credits minus total debits; for every other type — including the `Unknown`
stored when the type is missing — balance = total debits minus total
credits. -/
theorem balance_sign_convention (accounts : List Account) (pages : Nat → Page)
    (code : String) (e : AccountBalance)
    (h : List.lookup code (computeAllBalances accounts pages).1 = some e) :
    e.balance =
      if CREDIT_TYPES.contains (jsToUpper e.type) then e.credits - e.debits
      else e.debits - e.credits := by
  simp only [computeAllBalances] at h
  rw [lookup_map_mk] at h
  obtain ⟨b, -, hbe⟩ := Option.map_eq_some'.mp h
  rw [← hbe]
  exact mkAccountBalance_sign _ code b

/-- C1 witness: the theorem applied to a mixed-case liability account over a
one-page ledger. -/
theorem balance_sign_convention_witness :
    liabilityBal.balance =
      if CREDIT_TYPES.contains (jsToUpper liabilityBal.type) then
        liabilityBal.credits - liabilityBal.debits
      else liabilityBal.debits - liabilityBal.credits :=
  balance_sign_convention [liabilityAccount] liabilityPages "21001" liabilityBal
    (by decide)

/-! ## C6: a fresh Tier-1 cache hit is effect-free and returns the prior result -/

theorem memoryCache_after_call (frc : Bool) (now : Nat) (st : CacheState)
    (w : World) :
    ((getAllAccountBalances frc now st w).2.1).memoryCache =
      some (getAllAccountBalances frc now st w).1 := by
  unfold getAllAccountBalances
  split
  next hcond =>
    simp only [Bool.and_eq_true] at hcond
    obtain ⟨⟨⟨-, hsome⟩, -⟩, -⟩ := hcond
    cases hmc : st.memoryCache with
    | none => rw [hmc] at hsome; simp at hsome
    | some m => simp [hmc]
  next =>
    split
    · simp
    · rcases hdb : getBalancesFromDB w with ⟨odb, eff⟩
      cases odb with
      | some dbB => simp [hdb]
      | none => simp [hdb]

/-- C6.  If a call of `getAllAccountBalances` produced the result `r` and new
cache state `st1`, then a later non-forced call whose clock still lies inside
the Tier-1 TTL window returns exactly `r` again, leaves the state untouched
and performs no side effect at all: no network request and no read or write
of the persistent store. -/
theorem tier1_cache_hit (frc1 : Bool) (now1 now2 : Nat) (st0 : CacheState)
    (w : World) (r : List (String × AccountBalance)) (st1 : CacheState)
    (eff : List Effect)
    (hcall : getAllAccountBalances frc1 now1 st0 w = (r, st1, eff))
    (htime : natTruthy st1.memoryCacheTime = true)
    (hfresh : now2 - st1.memoryCacheTime.getD 0 < MEMORY_CACHE_TTL) :
    getAllAccountBalances false now2 st1 w = (r, st1, []) := by
  have hmem : st1.memoryCache = some r := by
    have := memoryCache_after_call frc1 now1 st0 w
    rw [hcall] at this
    exact this
  unfold getAllAccountBalances
  rw [if_pos]
  · rw [hmem]
    rfl
  · simp [hmem, htime, hfresh]

/-- C6 witness: a first call populates Tier 1 from the persistent snapshot;
a second call 1 second later returns it with an empty effect trace. -/
theorem tier1_cache_hit_witness :
    getAllAccountBalances false 2000 cacheStateDemo worldDemo =
      ([("21001", liabilityBal)], cacheStateDemo, []) :=
  tier1_cache_hit false 1000 2000 {} worldDemo
    [("21001", liabilityBal)] cacheStateDemo [Effect.dbRead]
    rfl (by decide) (by decide)

/-! ## C4: pagination stops at cursor exhaustion or at the page ceiling -/

theorem applyPage_eraseCursor (bal : List (String × RawBalance)) (p : Page) :
    applyPage bal { p with next_cursor := none } = applyPage bal p := rfl

theorem pageLoop_ceiling (pages : Nat → Page)
    (h : ∀ i, i < maxPages → strTruthy (pages i).next_cursor = true) :
    ∀ (fuel pc : Nat) (bal : List (String × RawBalance)),
      pc + fuel = maxPages → 1 ≤ fuel →
      pageLoop pages bal pc fuel =
        ((pageSeq pages pc fuel).foldl applyPage bal, maxPages) := by
  intro fuel
  induction fuel with
  | zero => intro pc bal hpc hf; exact absurd hf (by omega)
  | succ f ih =>
      intro pc bal hpc hf
      simp only [pageLoop]
      by_cases hf0 : f = 0
      · subst hf0
        have hpc1 : pc + 1 = maxPages := by omega
        rw [if_neg]
        · simp [pageSeq, hpc1]
        · simp [hpc1]
      · have hlt : pc + 1 < maxPages := by omega
        rw [if_pos]
        · rw [ih (pc + 1) (applyPage bal (pages pc)) (by omega) (by omega)]
          simp [pageSeq]
        · have hpclt : pc < maxPages := by omega
          simp [h pc hpclt, hlt]

theorem pageLoop_trunc_ceiling (pages : Nat → Page)
    (h : ∀ i, i < maxPages → strTruthy (pages i).next_cursor = true) :
    ∀ (fuel pc : Nat) (bal : List (String × RawBalance)),
      pc + fuel = maxPages → 1 ≤ fuel →
      pageLoop (truncateAt pages maxPages) bal pc fuel =
        ((pageSeq pages pc fuel).foldl applyPage bal, maxPages) := by
  intro fuel
  induction fuel with
  | zero => intro pc bal hpc hf; exact absurd hf (by omega)
  | succ f ih =>
      intro pc bal hpc hf
      simp only [pageLoop]
      by_cases hf0 : f = 0
      · subst hf0
        have hpc1 : pc + 1 = maxPages := by omega
        have htr : truncateAt pages maxPages pc = { pages pc with next_cursor := none } := by
          unfold truncateAt; rw [if_pos hpc1]
        rw [htr, applyPage_eraseCursor]
        rw [if_neg]
        · simp [pageSeq, hpc1]
        · simp [hpc1]
      · have hlt : pc + 1 < maxPages := by omega
        have htr : truncateAt pages maxPages pc = pages pc := by
          unfold truncateAt; rw [if_neg (by omega)]
        rw [htr, if_pos]
        · rw [ih (pc + 1) (applyPage bal (pages pc)) (by omega) (by omega)]
          simp [pageSeq]
        · have hpclt : pc < maxPages := by omega
          simp [h pc hpclt, hlt]

theorem pageLoop_cursor_stop (pages : Nat → Page) (k : Nat)
    (hk : strTruthy (pages k).next_cursor = false)
    (hbefore : ∀ i, i < k → strTruthy (pages i).next_cursor = true)
    (hkm : k < maxPages) :
    ∀ (fuel pc : Nat) (bal : List (String × RawBalance)),
      pc + fuel = maxPages → pc ≤ k →
      pageLoop pages bal pc fuel =
        ((pageSeq pages pc (k + 1 - pc)).foldl applyPage bal, k + 1) := by
  intro fuel
  induction fuel with
  | zero => intro pc bal hpc hpk; exact absurd hkm (by omega)
  | succ f ih =>
      intro pc bal hpc hpk
      simp only [pageLoop]
      by_cases hpck : pc = k
      · subst hpck
        rw [if_neg]
        · have h1 : pc + 1 - pc = 1 := by omega
          rw [h1]
          simp [pageSeq]
        · simp [hk]
      · have hpclt : pc < k := by omega
        rw [if_pos]
        · rw [ih (pc + 1) (applyPage bal (pages pc)) (by omega) (by omega)]
          have hseq : pageSeq pages pc (k + 1 - pc) =
              pages pc :: pageSeq pages (pc + 1) (k + 1 - (pc + 1)) := by
            have h1 : k + 1 - pc = (k + 1 - (pc + 1)) + 1 := by omega
            rw [h1]
            rfl
          rw [hseq]
          simp
        · have hmx : pc + 1 < maxPages := by omega
          simp [hbefore pc hpclt, hmx]

/-- C4 corrected.  The paginated ledger reader stops fetching either when the
remote API reports no continuation cursor (after `k + 1` pages when page `k`
is the first with no cursor) or when the hard page ceiling `maxPages` is
reached.  Reaching the ceiling is a safety cutoff, not an error: the partial
per-account aggregates of the first `maxPages` pages are still returned — but
with no caveat or incompleteness flag of any kind: the returned value is
EQUAL to the one computed over a ledger that genuinely ends at the cutoff
page, so a caller cannot distinguish a truncated run from a complete one. -/
theorem pagination_cutoff (accounts : List Account) (pages : Nat → Page) :
    ((∀ i, i < maxPages → strTruthy (pages i).next_cursor = true) →
        (computeAllBalances accounts pages).2 = maxPages ∧
          computeAllBalances accounts pages =
            computeAllBalances accounts (truncateAt pages maxPages)) ∧
      (∀ k, k < maxPages → strTruthy (pages k).next_cursor = false →
        (∀ i, i < k → strTruthy (pages i).next_cursor = true) →
        (computeAllBalances accounts pages).2 = k + 1) := by
  constructor
  · intro h
    constructor
    · simp only [computeAllBalances]
      rw [pageLoop_ceiling pages h maxPages 0 _ (by omega) (by decide)]
    · simp only [computeAllBalances]
      rw [pageLoop_ceiling pages h maxPages 0 _ (by omega) (by decide),
        pageLoop_trunc_ceiling pages h maxPages 0 _ (by omega) (by decide)]
  · intro k hkm hk hbefore
    simp only [computeAllBalances]
    rw [pageLoop_cursor_stop pages k hk hbefore hkm maxPages 0 _ (by omega)
      (by omega)]

/-- C4 witness: a ledger that reports a cursor on every fetch is cut off at
the ceiling and its result equals that of the honestly-ending ledger. -/
theorem pagination_cutoff_witness :
    (computeAllBalances [liabilityAccount] ceilingPages).2 = maxPages ∧
      computeAllBalances [liabilityAccount] ceilingPages =
        computeAllBalances [liabilityAccount] (truncateAt ceilingPages maxPages) :=
  (pagination_cutoff [liabilityAccount] ceilingPages).1
    (fun i hi => by unfold ceilingPages; rw [if_pos hi]; decide)

theorem foldl_applyPage_no_entries (ps : List Page)
    (h : ∀ p ∈ ps, p.journal_entries = some []) :
    ∀ bal : List (String × RawBalance), ps.foldl applyPage bal = bal := by
  induction ps with
  | nil => intro bal; rfl
  | cons p rest ih =>
      intro bal
      rw [List.foldl_cons]
      have hp : applyPage bal p = bal := by
        unfold applyPage
        rw [h p (by simp)]
        rfl
      rw [hp]
      exact ih (fun q hq => h q (by simp [hq])) bal

theorem mem_pageSeq (pages : Nat → Page) :
    ∀ (n start : Nat) (p : Page), p ∈ pageSeq pages start n →
      ∃ i, i < n ∧ p = pages (start + i) := by
  intro n
  induction n with
  | zero => intro start p hp; simp [pageSeq] at hp
  | succ m ih =>
      intro start p hp
      simp only [pageSeq, List.mem_cons] at hp
      cases hp with
      | inl h => exact ⟨0, by omega, by simpa using h⟩
      | inr h =>
          obtain ⟨i, hi, hpi⟩ := ih (start + 1) p h
          exact ⟨i + 1, by omega, by rw [hpi]; congr 1; omega⟩

/-- C4 counterexample: a ledger that still reports a continuation cursor on
its 500th page is cut off at the `maxPages = 500` ceiling, and the returned
value — page count aside — is EQUAL to the value computed over a ledger that
genuinely ends at page 500: no caveat or incompleteness flag of any kind
accompanies the partial aggregates (here the credit of 40 sitting on the
unfetched 501st page is silently missing: account 21001 reports zero credits
and zero transactions). -/
theorem pagination_cutoff_counterexample :
    (computeAllBalances [liabilityAccount] ceilingPages).2 = maxPages ∧
      strTruthy (ceilingPages (maxPages - 1)).next_cursor = true ∧
      computeAllBalances [liabilityAccount] ceilingPages =
        computeAllBalances [liabilityAccount] (truncateAt ceilingPages maxPages) ∧
      List.lookup "21001" (computeAllBalances [liabilityAccount] ceilingPages).1 =
        some { code := "21001", name := "Sales Tax Payable", type := "Liability",
               subtype := "Accrued", debits := 0, credits := 0, balance := 0,
               transactions := 0 } := by
  have hcursor : ∀ i, i < maxPages → strTruthy (ceilingPages i).next_cursor = true := by
    intro i hi
    unfold ceilingPages
    rw [if_pos hi]
    decide
  have hentries : ∀ p ∈ pageSeq ceilingPages 0 maxPages, p.journal_entries = some [] := by
    intro p hp
    obtain ⟨i, hi, hpi⟩ := mem_pageSeq ceilingPages maxPages 0 p hp
    rw [hpi]
    unfold ceilingPages
    rw [if_pos (by omega)]
  have hcomp : computeAllBalances [liabilityAccount] ceilingPages =
      (([liabilityAccount].foldl (fun m a => aset m (accKey a) ⟨0, 0, 0⟩) []).map
        (fun p => (p.1, mkAccountBalance
          ([liabilityAccount].foldl (fun m a => aset m (accKey a) a) []) p.1 p.2)),
       maxPages) := by
    simp only [computeAllBalances]
    rw [pageLoop_ceiling ceilingPages hcursor maxPages 0 _ (by omega) (by decide)]
    rw [foldl_applyPage_no_entries _ hentries]
  have hcompTrunc : computeAllBalances [liabilityAccount] (truncateAt ceilingPages maxPages) =
      (([liabilityAccount].foldl (fun m a => aset m (accKey a) ⟨0, 0, 0⟩) []).map
        (fun p => (p.1, mkAccountBalance
          ([liabilityAccount].foldl (fun m a => aset m (accKey a) a) []) p.1 p.2)),
       maxPages) := by
    simp only [computeAllBalances]
    rw [pageLoop_trunc_ceiling ceilingPages hcursor maxPages 0 _ (by omega) (by decide)]
    rw [foldl_applyPage_no_entries _ hentries]
  refine ⟨by rw [hcomp], by decide, by rw [hcomp, hcompTrunc], ?_⟩
  rw [hcomp]
  decide
